import Mathlib

/-!
Verification of the event-translation and event-draining layer of
`src/window/sdl_window.rs` (embedded-graphics-simulator).

The native SDL event stream is modelled as a list of native events; Rust
`f32` values are modelled as rationals with the casts `as i32` / `as u32`
made explicit as truncation toward zero; machine integers are modelled over
`ℤ` / `ℕ`.  The event-draining iterator `SimulatorEventsIter::next` is
embedded as a function from the queued native events to an optional emitted
event together with the native events still queued afterwards.
-/

namespace EGSim

/-- Logical point in simulator coordinates: an embedded-graphics `Point`
with `i32` fields, modelled over `ℤ`. -/
structure Point where
  x : Int
  y : Int
deriving DecidableEq, Repr

/-- Logical window size: an embedded-graphics `Size` with `u32` fields,
modelled over `ℕ`. -/
structure Size where
  width : Nat
  height : Nat
deriving DecidableEq, Repr

/-- SDL symbolic key code (`sdl2::keyboard::Keycode`), modelled by its
integer value. -/
abbrev Keycode := Int

/-- The `Keycode::Escape` constant (SDL key code 27). -/
def Keycode.escape : Keycode := 27

/-- SDL key modifier bitset (`sdl2::keyboard::Mod`), modelled as a natural
number (the underlying `u16` bitflags). -/
abbrev KeyMod := Nat

/-- SDL mouse button identifier (`sdl2::mouse::MouseButton`), modelled as a
natural number. -/
abbrev MouseButton := Nat

/-- SDL mouse wheel direction (`sdl2::mouse::MouseWheelDirection`, normal or
flipped), modelled as a natural number. -/
abbrev MouseWheelDirection := Nat

/-- Rust `f32 as i32` cast: truncation toward zero, with the float value
modelled as a rational. -/
def f32_as_i32 (q : ℚ) : Int := if q < 0 then ⌈q⌉ else ⌊q⌋

/-- Rust `f32 as u32` cast: truncation toward zero, saturating at `0` for
negative values, with the float value modelled as a rational. -/
def f32_as_u32 (q : ℚ) : Nat := (f32_as_i32 q).toNat

/-- `fn scale_touch_pos(x: f32, y: f32, size: Size) -> Point` from
`sdl_window.rs`: scales normalized touch coordinates by the logical window
size and truncates to integer coordinates. -/
def scale_touch_pos (x y : ℚ) (size : Size) : Point :=
  Point.mk (f32_as_i32 (x * (size.width : ℚ))) (f32_as_i32 (y * (size.height : ℚ)))

/-- Modelled from the spec: `OutputSettings` lives outside
`src/window/sdl_window.rs` and is specified only as an injected, cheaply
clonable collaborator exposing a pure coordinate corrector
`output_to_display(point) -> point` from raw output coordinates to logical
display coordinates. -/
structure OutputSettings where
  output_to_display : Point → Point

/-- A native SDL event (`sdl2::event::Event`), restricted to the payload
fields read by `SimulatorEventsIter::next`.  The constructor `other` stands
for every native event kind not matched by a dedicated arm (the `_` arm of
the Rust `match`).  Key events carry `keycode: Option<Keycode>`; finger
events carry normalized `f32` coordinates and pressure, modelled as
rationals. -/
inductive Event where
  | quit : Event
  | keyDown (keycode : Option Keycode) (keymod : KeyMod) (rpt : Bool) : Event
  | keyUp (keycode : Option Keycode) (keymod : KeyMod) (rpt : Bool) : Event
  | mouseButtonUp (x y : Int) (mouse_btn : MouseButton) : Event
  | mouseButtonDown (x y : Int) (mouse_btn : MouseButton) : Event
  | mouseMotion (x y : Int) : Event
  | mouseWheel (x y : Int) (direction : MouseWheelDirection) : Event
  | fingerDown (finger_id : Int) (x y pressure : ℚ) : Event
  | fingerMotion (finger_id : Int) (x y pressure : ℚ) : Event
  | fingerUp (finger_id : Int) (x y pressure : ℚ) : Event
  | other : Event
deriving DecidableEq, Repr

/-- The normalized event type `SimulatorEvent` from `sdl_window.rs`. -/
inductive SimulatorEvent where
  | keyUp (keycode : Keycode) (keymod : KeyMod) (rpt : Bool) : SimulatorEvent
  | keyDown (keycode : Keycode) (keymod : KeyMod) (rpt : Bool) : SimulatorEvent
  | mouseButtonUp (mouse_btn : MouseButton) (point : Point) : SimulatorEvent
  | mouseButtonDown (mouse_btn : MouseButton) (point : Point) : SimulatorEvent
  | mouseWheel (scroll_delta : Point) (direction : MouseWheelDirection) : SimulatorEvent
  | mouseMove (point : Point) : SimulatorEvent
  | touchStarted (id : Int) (point : Point) (pressure : Nat) : SimulatorEvent
  | touchMoved (id : Int) (point : Point) (pressure : Nat) : SimulatorEvent
  | touchEnded (id : Int) (point : Point) (pressure : Nat) : SimulatorEvent
  | touchCancelled (id : Int) (point : Point) (pressure : Nat) : SimulatorEvent
  | quit : SimulatorEvent
deriving DecidableEq, Repr

/-- Whether a normalized event is the `TouchCancelled` variant. -/
def SimulatorEvent.isTouchCancelled : SimulatorEvent → Bool
  | SimulatorEvent.touchCancelled _ _ _ => true
  | _ => false

/-- The body of `SimulatorEventsIter::next`, with the event pump modelled as
the list of currently queued native events.  One call polls native events in
order; on the first handled native event it returns the translated
`SimulatorEvent` together with the events still queued; the `_` arm skips
the event and polls the next one; a key event whose `keycode` is `None`
makes `next` return `keycode.map(...) = None` (the head event is consumed
by the poll); an empty pump returns `None`. -/
def nextEvent (os : OutputSettings) (size : Size) :
    List Event → Option SimulatorEvent × List Event
  | [] => (none, [])
  | Event.quit :: rest => (some SimulatorEvent.quit, rest)
  | Event.keyDown keycode keymod r :: rest =>
    if keycode = some Keycode.escape then
      (some SimulatorEvent.quit, rest)
    else
      (keycode.map fun valid_keycode => SimulatorEvent.keyDown valid_keycode keymod r, rest)
  | Event.keyUp keycode keymod r :: rest =>
    (keycode.map fun valid_keycode => SimulatorEvent.keyUp valid_keycode keymod r, rest)
  | Event.mouseButtonUp x y mouse_btn :: rest =>
    (some (SimulatorEvent.mouseButtonUp mouse_btn (os.output_to_display (Point.mk x y))), rest)
  | Event.mouseButtonDown x y mouse_btn :: rest =>
    (some (SimulatorEvent.mouseButtonDown mouse_btn (os.output_to_display (Point.mk x y))), rest)
  | Event.mouseMotion x y :: rest =>
    (some (SimulatorEvent.mouseMove (os.output_to_display (Point.mk x y))), rest)
  | Event.mouseWheel x y direction :: rest =>
    (some (SimulatorEvent.mouseWheel (Point.mk x y) direction), rest)
  | Event.fingerDown finger_id x y pressure :: rest =>
    (some (SimulatorEvent.touchStarted finger_id
      (os.output_to_display (scale_touch_pos x y size)) (f32_as_u32 (pressure * 100))), rest)
  | Event.fingerMotion finger_id x y pressure :: rest =>
    (some (SimulatorEvent.touchMoved finger_id
      (os.output_to_display (scale_touch_pos x y size)) (f32_as_u32 (pressure * 100))), rest)
  | Event.fingerUp finger_id x y pressure :: rest =>
    (some (SimulatorEvent.touchEnded finger_id
      (os.output_to_display (scale_touch_pos x y size)) (f32_as_u32 (pressure * 100))), rest)
  | Event.other :: rest => nextEvent os size rest

/-- Fully iterating one draining sequence: repeatedly pull `nextEvent` and
collect the emitted events, stopping at the first pull that returns `none`
(the Rust `for` loop stops at the first `None` from the iterator).  The fuel
argument bounds the number of pulls; each successful pull consumes at least
one queued native event, so `queue.length` fuel is always enough. -/
def drainFuel (os : OutputSettings) (size : Size) : Nat → List Event → List SimulatorEvent
  | 0, _ => []
  | Nat.succ n, queue =>
    match nextEvent os size queue with
    | (none, _) => []
    | (some ev, rest) => ev :: drainFuel os size n rest

/-- The full emitted sequence of one draining call on a given native queue. -/
def drain (os : OutputSettings) (size : Size) (queue : List Event) : List SimulatorEvent :=
  drainFuel os size queue.length queue

/-- A native event `e` translates (in the sense of the spec: produces exactly
one normalized event and leaves the rest of the queue to be drained) to
`se`. -/
abbrev translatesTo (os : OutputSettings) (size : Size) (e : Event) (se : SimulatorEvent) : Prop :=
  nextEvent os size [e] = (some se, [])

/-- The error raised by `RefCell::borrow_mut` when the cell is already
mutably borrowed (`already borrowed: BorrowMutError`, a panic in
`SdlWindow::events`). -/
inductive BorrowMutError where
  | alreadyBorrowed : BorrowMutError
deriving DecidableEq, Repr

/-- The state of `SimulatorEventsIter`: the mutable borrow of the event pump
(its queued native events), the cloned output settings and the window
size. -/
structure SimulatorEventsIter where
  event_pump : List Event
  output_settings : OutputSettings
  size : Size

/-- The `SdlWindow` state relevant to `events`: the `RefCell<EventPump>` is
modelled by its queued native events plus the dynamic borrow flag that
`borrow_mut` checks (set while a returned `SimulatorEventsIter` is still
alive, cleared when it is dropped). -/
structure SdlWindow where
  event_pump : List Event
  event_pump_borrowed : Bool
  size : Size

/-- `SdlWindow::events`: `self.event_pump.borrow_mut()` panics with a
`BorrowMutError` when the pump is already mutably borrowed by a live
iterator; otherwise it returns the iterator holding the borrow, and the
window's borrow flag is set for the iterator's lifetime. -/
def SdlWindow.events (w : SdlWindow) (output_settings : OutputSettings) :
    Except BorrowMutError (SimulatorEventsIter × SdlWindow) :=
  if w.event_pump_borrowed then
    Except.error BorrowMutError.alreadyBorrowed
  else
    Except.ok
      ({ event_pump := w.event_pump, output_settings := output_settings, size := w.size },
       { w with event_pump_borrowed := true })

/-- The identity coordinate corrector (the corrector of the default output
settings with scale 1 and no transformation). -/
def identitySettings : OutputSettings :=
  OutputSettings.mk (fun p => p)

/-!  Helper lemmas about the draining loop. -/

/-- Each successful pull of `nextEvent` consumes at least one queued native
event: the leftover queue is strictly shorter. -/
theorem nextEvent_some_length (os : OutputSettings) (sz : Size) :
    ∀ (q rest : List Event) (se : SimulatorEvent),
      nextEvent os sz q = (some se, rest) → rest.length < q.length := by
  intro q
  induction q with
  | nil =>
    intro rest se h
    simp [nextEvent] at h
  | cons e tail ih =>
    intro rest se h
    cases e with
    | quit =>
      injection h with h1 h2
      simp [← h2]
    | keyDown keycode keymod r =>
      rw [nextEvent] at h
      split at h
      · injection h with h1 h2
        simp [← h2]
      · cases keycode with
        | none => simp at h
        | some k =>
          injection h with h1 h2
          simp [← h2]
    | keyUp keycode keymod r =>
      rw [nextEvent] at h
      cases keycode with
      | none => simp at h
      | some k =>
        injection h with h1 h2
        simp [← h2]
    | mouseButtonUp x y b =>
      injection h with h1 h2
      simp [← h2]
    | mouseButtonDown x y b =>
      injection h with h1 h2
      simp [← h2]
    | mouseMotion x y =>
      injection h with h1 h2
      simp [← h2]
    | mouseWheel x y d =>
      injection h with h1 h2
      simp [← h2]
    | fingerDown i x y p =>
      injection h with h1 h2
      simp [← h2]
    | fingerMotion i x y p =>
      injection h with h1 h2
      simp [← h2]
    | fingerUp i x y p =>
      injection h with h1 h2
      simp [← h2]
    | other =>
      rw [nextEvent] at h
      exact Nat.lt_succ_of_lt (ih rest se h)

/-- Any amount of fuel at least the queue length computes the same emitted
sequence as `drain`. -/
theorem drainFuel_eq_drain (os : OutputSettings) (sz : Size) :
    ∀ (n : Nat) (q : List Event), q.length ≤ n →
      drainFuel os sz n q = drain os sz q := by
  intro n
  induction n using Nat.strong_induction_on with
  | _ n ih =>
    intro q hq
    cases n with
    | zero =>
      have hq0 : q = [] := List.length_eq_zero.mp (Nat.le_zero.mp hq)
      subst hq0
      rfl
    | succ n =>
      cases q with
      | nil => rfl
      | cons e tail =>
        simp only [drain, List.length_cons]
        rw [drainFuel, drainFuel]
        cases hnext : nextEvent os sz (e :: tail) with
        | mk emitted rest =>
          cases emitted with
          | none => rfl
          | some se =>
            have hlen : rest.length < (e :: tail).length :=
              nextEvent_some_length os sz _ _ _ hnext
            have hr : rest.length ≤ tail.length := by
              simpa [List.length_cons, Nat.lt_succ_iff] using hlen
            have htn : tail.length ≤ n := by
              simpa [List.length_cons, Nat.succ_le_succ_iff] using hq
            have h1 : drainFuel os sz n rest = drain os sz rest :=
              ih n (Nat.lt_succ_self n) rest (le_trans hr htn)
            have h2 : drainFuel os sz tail.length rest = drain os sz rest :=
              ih tail.length (Nat.lt_succ_of_le htn) rest hr
            exact congrArg (List.cons se) (h1.trans h2.symm)

/-- Unfolding `drain` one emitted event at a time. -/
theorem drain_cons (os : OutputSettings) (sz : Size) (q rest : List Event)
    (se : SimulatorEvent) (h : nextEvent os sz q = (some se, rest)) :
    drain os sz q = se :: drain os sz rest := by
  cases q with
  | nil => simp [nextEvent] at h
  | cons e tail =>
    have hlen : rest.length < (e :: tail).length :=
      nextEvent_some_length os sz _ _ _ h
    have hr : rest.length ≤ tail.length := by
      simpa [List.length_cons, Nat.lt_succ_iff] using hlen
    rw [drain, List.length_cons, drainFuel, h]
    exact congrArg (List.cons se) (drainFuel_eq_drain os sz tail.length rest hr)

/-- A pull that emits nothing ends the sequence for this draining call. -/
theorem drain_of_none (os : OutputSettings) (sz : Size) (q rest : List Event)
    (h : nextEvent os sz q = (none, rest)) :
    drain os sz q = [] := by
  cases q with
  | nil => rfl
  | cons e tail =>
    rw [drain, List.length_cons, drainFuel, h]

/-- A translating native event at the head of the queue is emitted as-is,
leaving the tail queued. -/
theorem translatesTo_cons (os : OutputSettings) (sz : Size) (e : Event)
    (se : SimulatorEvent) (rest : List Event) (h : translatesTo os sz e se) :
    nextEvent os sz (e :: rest) = (some se, rest) := by
  cases e with
  | quit =>
    injection h with h1 h2
    injection h1 with h1
    rw [← h1]
    rfl
  | keyDown keycode keymod r =>
    rw [translatesTo, nextEvent] at h
    rw [nextEvent]
    split at h
    · next hc =>
      injection h with h1 h2
      injection h1 with h1
      rw [if_pos hc, ← h1]
    · next hc =>
      cases keycode with
      | none => simp at h
      | some k =>
        injection h with h1 h2
        injection h1 with h1
        rw [if_neg hc, ← h1]
        rfl
  | keyUp keycode keymod r =>
    rw [translatesTo, nextEvent] at h
    rw [nextEvent]
    cases keycode with
    | none => simp at h
    | some k =>
      injection h with h1 h2
      injection h1 with h1
      rw [← h1]
      rfl
  | mouseButtonUp x y b =>
    injection h with h1 h2
    injection h1 with h1
    rw [← h1]
    rfl
  | mouseButtonDown x y b =>
    injection h with h1 h2
    injection h1 with h1
    rw [← h1]
    rfl
  | mouseMotion x y =>
    injection h with h1 h2
    injection h1 with h1
    rw [← h1]
    rfl
  | mouseWheel x y d =>
    injection h with h1 h2
    injection h1 with h1
    rw [← h1]
    rfl
  | fingerDown i x y p =>
    injection h with h1 h2
    injection h1 with h1
    rw [← h1]
    rfl
  | fingerMotion i x y p =>
    injection h with h1 h2
    injection h1 with h1
    rw [← h1]
    rfl
  | fingerUp i x y p =>
    injection h with h1 h2
    injection h1 with h1
    rw [← h1]
    rfl
  | other =>
    rw [translatesTo, nextEvent, nextEvent] at h
    simp at h

/-- Draining a queue whose events all translate emits their translations in
queue order. -/
theorem drain_map (os : OutputSettings) (sz : Size) (f : Event → SimulatorEvent) :
    ∀ q : List Event, (∀ e ∈ q, translatesTo os sz e (f e)) →
      drain os sz q = q.map f := by
  intro q
  induction q with
  | nil => intro _; rfl
  | cons e tail ih =>
    intro h
    have he : translatesTo os sz e (f e) := h e (List.mem_cons_self e tail)
    rw [drain_cons os sz (e :: tail) tail (f e) (translatesTo_cons os sz e (f e) tail he)]
    rw [ih (fun x hx => h x (List.mem_cons_of_mem e hx)), List.map_cons]

/-- On a nonnegative value the float-to-`i32` cast is the floor. -/
theorem f32_as_i32_of_nonneg (q : ℚ) (h : 0 ≤ q) : f32_as_i32 q = ⌊q⌋ :=
  if_neg (not_lt.mpr h)

/-- A queue consisting only of unhandled-kind native events is drained to
nothing: the loop skips every event and ends at the empty pump. -/
theorem nextEvent_all_other (os : OutputSettings) (sz : Size) :
    ∀ q : List Event, (∀ e ∈ q, e = Event.other) →
      nextEvent os sz q = (none, []) := by
  intro q
  induction q with
  | nil => intro _; rfl
  | cons e tail ih =>
    intro h
    have he := h e (List.mem_cons_self e tail)
    subst he
    rw [nextEvent]
    exact ih (fun x hx => h x (List.mem_cons_of_mem _ hx))

/-- No arm of the translation `match` builds the `TouchCancelled` variant. -/
theorem nextEvent_emit_not_touchCancelled (os : OutputSettings) (sz : Size) :
    ∀ (q rest : List Event) (se : SimulatorEvent),
      nextEvent os sz q = (some se, rest) → se.isTouchCancelled = false := by
  intro q
  induction q with
  | nil =>
    intro rest se h
    simp [nextEvent] at h
  | cons e tail ih =>
    intro rest se h
    cases e with
    | quit =>
      injection h with h1 h2
      injection h1 with h1
      rw [← h1]
      rfl
    | keyDown keycode keymod r =>
      rw [nextEvent] at h
      split at h
      · injection h with h1 h2
        injection h1 with h1
        rw [← h1]
        rfl
      · cases keycode with
        | none => simp at h
        | some k =>
          injection h with h1 h2
          injection h1 with h1
          rw [← h1]
          rfl
    | keyUp keycode keymod r =>
      rw [nextEvent] at h
      cases keycode with
      | none => simp at h
      | some k =>
        injection h with h1 h2
        injection h1 with h1
        rw [← h1]
        rfl
    | mouseButtonUp x y b =>
      injection h with h1 h2
      injection h1 with h1
      rw [← h1]
      rfl
    | mouseButtonDown x y b =>
      injection h with h1 h2
      injection h1 with h1
      rw [← h1]
      rfl
    | mouseMotion x y =>
      injection h with h1 h2
      injection h1 with h1
      rw [← h1]
      rfl
    | mouseWheel x y d =>
      injection h with h1 h2
      injection h1 with h1
      rw [← h1]
      rfl
    | fingerDown i x y p =>
      injection h with h1 h2
      injection h1 with h1
      rw [← h1]
      rfl
    | fingerMotion i x y p =>
      injection h with h1 h2
      injection h1 with h1
      rw [← h1]
      rfl
    | fingerUp i x y p =>
      injection h with h1 h2
      injection h1 with h1
      rw [← h1]
      rfl
    | other =>
      rw [nextEvent] at h
      exact ih rest se h

/-- No event of a fuelled draining run is the `TouchCancelled` variant. -/
theorem mem_drainFuel_not_touchCancelled (os : OutputSettings) (sz : Size) :
    ∀ (n : Nat) (q : List Event) (se : SimulatorEvent),
      se ∈ drainFuel os sz n q → se.isTouchCancelled = false := by
  intro n
  induction n with
  | zero =>
    intro q se h
    simp [drainFuel] at h
  | succ n ih =>
    intro q se h
    rw [drainFuel] at h
    cases hnext : nextEvent os sz q with
    | mk emitted rest =>
      rw [hnext] at h
      cases emitted with
      | none => simp at h
      | some ev =>
        have h' : se ∈ ev :: drainFuel os sz n rest := h
        cases List.mem_cons.mp h' with
        | inl hse =>
          subst hse
          exact nextEvent_emit_not_touchCancelled os sz q rest se hnext
        | inr hse => exact ih rest se hse

/-!  Claims. -/

/-- C1 counterexample: the claim that a key event with an unresolvable key
code is skipped and the draining loop continues fails on the code.  With a
`KeyDown` carrying `keycode = None` followed by a translatable `Quit` native
event, the next-step returns `none` (ending the sequence for that call) and
the full draining call emits nothing, instead of continuing to emit `Quit`. -/
theorem C1_counterexample :
    nextEvent identitySettings (Size.mk 320 240)
      [Event.keyDown none 0 false, Event.quit] = (none, [Event.quit])
    ∧ drain identitySettings (Size.mk 320 240)
      [Event.keyDown none 0 false, Event.quit] = [] := by
  exact ⟨by decide, by decide⟩

/-- C1 (amended): a native event of an unhandled kind is silently skipped and
the draining loop continues with the next queued native event; a key press or
release event whose key code cannot be resolved emits nothing, but it ends
the sequence for that call (the next-step returns `none`), leaving the
remaining native events queued. -/
theorem C1_unhandled_skipped_unresolvable_ends (os : OutputSettings) (sz : Size)
    (keymod : KeyMod) (r : Bool) (rest : List Event) :
    nextEvent os sz (Event.other :: rest) = nextEvent os sz rest
    ∧ nextEvent os sz (Event.keyDown none keymod r :: rest) = (none, rest)
    ∧ nextEvent os sz (Event.keyUp none keymod r :: rest) = (none, rest) := by
  refine ⟨rfl, ?_, rfl⟩
  rw [nextEvent, if_neg (by simp)]
  rfl

/-- C2: starting a second event-draining sequence via `events` while a
previously returned iterator still holds the mutable borrow of the event
pump fails deterministically and immediately with a `BorrowMutError`. -/
theorem C2_second_events_fails (w : SdlWindow) (os1 os2 : OutputSettings)
    (it : SimulatorEventsIter) (w' : SdlWindow)
    (h : SdlWindow.events w os1 = Except.ok (it, w')) :
    SdlWindow.events w' os2 = Except.error BorrowMutError.alreadyBorrowed := by
  rw [SdlWindow.events] at h
  split at h
  · exact absurd h (by simp)
  · injection h with h1
    have hw' : w' = { w with event_pump_borrowed := true } := by
      have h2 := congrArg Prod.snd h1
      exact h2.symm
    rw [SdlWindow.events, hw']
    rfl

/-- C2 witness: with the borrow flag already taken, `events` fails. -/
theorem C2_witness :
    SdlWindow.events (SdlWindow.mk [] true (Size.mk 320 240)) identitySettings
      = Except.error BorrowMutError.alreadyBorrowed :=
  C2_second_events_fails (SdlWindow.mk [] false (Size.mk 320 240))
    identitySettings identitySettings
    (SimulatorEventsIter.mk [] identitySettings (Size.mk 320 240))
    (SdlWindow.mk [] true (Size.mk 320 240)) rfl

/-- C3: a native quit-signal event and a native escape-key-down event, under
every modifier set and repeat flag, both translate to exactly `Quit`, taking
priority over the ordinary `KeyDown` mapping. -/
theorem C3_quit_priority (os : OutputSettings) (sz : Size) (keymod : KeyMod)
    (r : Bool) (rest : List Event) :
    nextEvent os sz (Event.quit :: rest) = (some SimulatorEvent.quit, rest)
    ∧ nextEvent os sz (Event.keyDown (some Keycode.escape) keymod r :: rest)
        = (some SimulatorEvent.quit, rest) := by
  refine ⟨rfl, ?_⟩
  rw [nextEvent, if_pos rfl]

/-- C4: for every native touch event with normalized coordinates in `[0,1]`
and every window size, the emitted position is the injected corrector
applied to `(truncate (x * width), truncate (y * height))`; in particular a
320×240 window with identity corrector and a touch-begin at `(0.5, 0.5)`
with pressure `0.8` yields `TouchStarted` at `(160, 120)` with pressure
`80`. -/
theorem C4_touch_position_scaled_then_corrected (os : OutputSettings) (sz : Size)
    (id : Int) (x y p : ℚ) (rest : List Event)
    (hx0 : 0 ≤ x) (hx1 : x ≤ 1) (hy0 : 0 ≤ y) (hy1 : y ≤ 1) :
    (nextEvent os sz (Event.fingerDown id x y p :: rest)
        = (some (SimulatorEvent.touchStarted id
            (os.output_to_display (Point.mk (f32_as_i32 (x * (sz.width : ℚ)))
              (f32_as_i32 (y * (sz.height : ℚ)))))
            (f32_as_u32 (p * 100))), rest)
      ∧ nextEvent os sz (Event.fingerMotion id x y p :: rest)
        = (some (SimulatorEvent.touchMoved id
            (os.output_to_display (Point.mk (f32_as_i32 (x * (sz.width : ℚ)))
              (f32_as_i32 (y * (sz.height : ℚ)))))
            (f32_as_u32 (p * 100))), rest)
      ∧ nextEvent os sz (Event.fingerUp id x y p :: rest)
        = (some (SimulatorEvent.touchEnded id
            (os.output_to_display (Point.mk (f32_as_i32 (x * (sz.width : ℚ)))
              (f32_as_i32 (y * (sz.height : ℚ)))))
            (f32_as_u32 (p * 100))), rest))
    ∧ nextEvent identitySettings (Size.mk 320 240)
        [Event.fingerDown id (1/2) (1/2) (8/10)]
        = (some (SimulatorEvent.touchStarted id (Point.mk 160 120) 80), []) := by
  refine ⟨⟨rfl, rfl, rfl⟩, ?_⟩
  rw [nextEvent]
  have hpt : scale_touch_pos (1/2) (1/2) (Size.mk 320 240) = Point.mk 160 120 := by
    rw [scale_touch_pos]
    have h1 : f32_as_i32 ((1/2 : ℚ) * ((Size.mk 320 240).width : ℚ)) = 160 := by
      rw [f32_as_i32, if_neg (by norm_num)]
      norm_num
    have h2 : f32_as_i32 ((1/2 : ℚ) * ((Size.mk 320 240).height : ℚ)) = 120 := by
      rw [f32_as_i32, if_neg (by norm_num)]
      norm_num
    rw [h1, h2]
  have hpr : f32_as_u32 ((8/10 : ℚ) * 100) = 80 := by
    rw [f32_as_u32, f32_as_i32, if_neg (by norm_num)]
    norm_num
    decide
  rw [hpt, hpr]
  rfl

/-- C4 witness: the end-to-end scenario at concrete inputs. -/
theorem C4_witness :
    nextEvent identitySettings (Size.mk 320 240)
      [Event.fingerDown 7 (1/2) (1/2) (8/10)]
      = (some (SimulatorEvent.touchStarted 7 (Point.mk 160 120) 80), []) :=
  (C4_touch_position_scaled_then_corrected identitySettings (Size.mk 320 240)
    7 (1/2) (1/2) (8/10) []
    (by norm_num) (by norm_num) (by norm_num) (by norm_num)).2

/-- C5: the emitted touch pressure is the native pressure multiplied by 100
and truncated; the mapping is boundary-exact (`0 ↦ 0`, `1 ↦ 100`,
`0.5 ↦ 50`, `0.999 ↦ 99`), monotonic, and bounded by 100 on `[0,1]`. -/
theorem C5_pressure_truncated_monotone_bounded (os : OutputSettings) (sz : Size)
    (id : Int) (x y p q : ℚ) (rest : List Event)
    (hp0 : 0 ≤ p) (hpq : p ≤ q) (hq1 : q ≤ 1) :
    (nextEvent os sz (Event.fingerDown id x y p :: rest)
        = (some (SimulatorEvent.touchStarted id
            (os.output_to_display (scale_touch_pos x y sz))
            (f32_as_u32 (p * 100))), rest)
      ∧ nextEvent os sz (Event.fingerMotion id x y p :: rest)
        = (some (SimulatorEvent.touchMoved id
            (os.output_to_display (scale_touch_pos x y sz))
            (f32_as_u32 (p * 100))), rest)
      ∧ nextEvent os sz (Event.fingerUp id x y p :: rest)
        = (some (SimulatorEvent.touchEnded id
            (os.output_to_display (scale_touch_pos x y sz))
            (f32_as_u32 (p * 100))), rest))
    ∧ f32_as_u32 ((0 : ℚ) * 100) = 0
    ∧ f32_as_u32 ((1 : ℚ) * 100) = 100
    ∧ f32_as_u32 ((1/2 : ℚ) * 100) = 50
    ∧ f32_as_u32 ((999/1000 : ℚ) * 100) = 99
    ∧ f32_as_u32 (p * 100) ≤ f32_as_u32 (q * 100)
    ∧ f32_as_u32 (q * 100) ≤ 100 := by
  have h100 : (0 : ℚ) ≤ 100 := by norm_num
  have hq0 : (0 : ℚ) ≤ q := le_trans hp0 hpq
  have hp100 : (0 : ℚ) ≤ p * 100 := mul_nonneg hp0 h100
  have hq100 : (0 : ℚ) ≤ q * 100 := mul_nonneg hq0 h100
  refine ⟨⟨rfl, rfl, rfl⟩, ?_, ?_, ?_, ?_, ?_, ?_⟩
  · rw [f32_as_u32, f32_as_i32, if_neg (by norm_num)]
    norm_num
  · rw [f32_as_u32, f32_as_i32, if_neg (by norm_num)]
    norm_num
    decide
  · rw [f32_as_u32, f32_as_i32, if_neg (by norm_num)]
    norm_num
    decide
  · rw [f32_as_u32, f32_as_i32, if_neg (by norm_num)]
    norm_num
    decide
  · rw [f32_as_u32, f32_as_u32, f32_as_i32_of_nonneg _ hp100,
      f32_as_i32_of_nonneg _ hq100]
    exact Int.toNat_le_toNat (Int.floor_mono (mul_le_mul_of_nonneg_right hpq h100))
  · rw [f32_as_u32, f32_as_i32_of_nonneg _ hq100, Int.toNat_le]
    have hle : q * 100 ≤ 100 := by
      calc q * 100 ≤ 1 * 100 := mul_le_mul_of_nonneg_right hq1 h100
        _ = 100 := one_mul 100
    calc ⌊q * 100⌋ ≤ ⌊(100 : ℚ)⌋ := Int.floor_mono hle
      _ = ((100 : Nat) : Int) := by norm_num

/-- C5 witness: monotonicity and bound at concrete pressures 0.5 and 0.999. -/
theorem C5_witness :
    f32_as_u32 ((1/2 : ℚ) * 100) ≤ f32_as_u32 ((999/1000 : ℚ) * 100)
    ∧ f32_as_u32 ((999/1000 : ℚ) * 100) ≤ 100 :=
  ⟨(C5_pressure_truncated_monotone_bounded identitySettings (Size.mk 320 240)
      0 0 0 (1/2) (999/1000) [] (by norm_num) (by norm_num) (by norm_num)).2.2.2.2.2.1,
   (C5_pressure_truncated_monotone_bounded identitySettings (Size.mk 320 240)
      0 0 0 (1/2) (999/1000) [] (by norm_num) (by norm_num) (by norm_num)).2.2.2.2.2.2⟩

/-- C6: for every native pointer button or motion event with raw
coordinates `(x, y)` and every injected corrector, the emitted position is
exactly the corrector applied to `(x, y)`. -/
theorem C6_pointer_position_corrected (os : OutputSettings) (sz : Size)
    (x y : Int) (mouse_btn : MouseButton) (rest : List Event) :
    nextEvent os sz (Event.mouseButtonUp x y mouse_btn :: rest)
      = (some (SimulatorEvent.mouseButtonUp mouse_btn
          (os.output_to_display (Point.mk x y))), rest)
    ∧ nextEvent os sz (Event.mouseButtonDown x y mouse_btn :: rest)
      = (some (SimulatorEvent.mouseButtonDown mouse_btn
          (os.output_to_display (Point.mk x y))), rest)
    ∧ nextEvent os sz (Event.mouseMotion x y :: rest)
      = (some (SimulatorEvent.mouseMove (os.output_to_display (Point.mk x y))), rest) :=
  ⟨rfl, rfl, rfl⟩

/-- C7: draining a queue `[a, b, c]` of three translating native events
emits exactly their three translations, in queue order. -/
theorem C7_drain_order_preserving (os : OutputSettings) (sz : Size)
    (a b c : Event) (fa fb fc : SimulatorEvent)
    (ha : translatesTo os sz a fa) (hb : translatesTo os sz b fb)
    (hc : translatesTo os sz c fc) :
    drain os sz [a, b, c] = [fa, fb, fc] := by
  rw [drain_cons os sz _ _ _ (translatesTo_cons os sz a fa [b, c] ha)]
  rw [drain_cons os sz _ _ _ (translatesTo_cons os sz b fb [c] hb)]
  rw [drain_cons os sz _ _ _ (translatesTo_cons os sz c fc [] hc)]
  rfl

/-- C7 witness: a three-event queue drained with the identity corrector. -/
theorem C7_witness :
    drain identitySettings (Size.mk 320 240)
      [Event.mouseMotion 3 4, Event.quit, Event.mouseWheel 1 (-2) 0]
      = [SimulatorEvent.mouseMove (Point.mk 3 4), SimulatorEvent.quit,
         SimulatorEvent.mouseWheel (Point.mk 1 (-2)) 0] :=
  C7_drain_order_preserving identitySettings (Size.mk 320 240)
    (Event.mouseMotion 3 4) Event.quit (Event.mouseWheel 1 (-2) 0)
    (SimulatorEvent.mouseMove (Point.mk 3 4)) SimulatorEvent.quit
    (SimulatorEvent.mouseWheel (Point.mk 1 (-2)) 0)
    (by decide) (by decide) (by decide)

/-- C8: draining terminates and is exhaustive: the empty queue yields the
empty sequence, a queue of only unhandled-kind events yields the empty
sequence, and each successful next-step consumes at least one queued native
event (so one call performs at most one poll per queued event). -/
theorem C8_drain_terminates (os : OutputSettings) (sz : Size) (q : List Event)
    (h : ∀ e ∈ q, e = Event.other) :
    drain os sz [] = []
    ∧ drain os sz q = []
    ∧ (∀ (q2 rest : List Event) (se : SimulatorEvent),
        nextEvent os sz q2 = (some se, rest) → rest.length < q2.length) :=
  ⟨rfl,
   drain_of_none os sz q [] (nextEvent_all_other os sz q h),
   fun q2 rest se hs => nextEvent_some_length os sz q2 rest se hs⟩

/-- C8 witness: a queue of two irrelevant native events drains to nothing. -/
theorem C8_witness :
    drain identitySettings (Size.mk 320 240) [Event.other, Event.other] = [] :=
  (C8_drain_terminates identitySettings (Size.mk 320 240)
    [Event.other, Event.other] (by decide)).2.1

/-- C9: emitting `Quit` does not end the draining sequence: whether the quit
comes from a native quit signal or from an escape key-down, the translatable
events queued after it are still drained and emitted in order. -/
theorem C9_drain_continues_after_quit (os : OutputSettings) (sz : Size)
    (q : List Event) (f : Event → SimulatorEvent) (keymod : KeyMod) (r : Bool)
    (h : ∀ e ∈ q, translatesTo os sz e (f e)) :
    drain os sz (Event.quit :: q) = SimulatorEvent.quit :: q.map f
    ∧ drain os sz (Event.keyDown (some Keycode.escape) keymod r :: q)
        = SimulatorEvent.quit :: q.map f := by
  constructor
  · rw [drain_cons os sz (Event.quit :: q) q SimulatorEvent.quit rfl,
      drain_map os sz f q h]
  · have hesc : nextEvent os sz (Event.keyDown (some Keycode.escape) keymod r :: q)
        = (some SimulatorEvent.quit, q) := by
      rw [nextEvent, if_pos rfl]
    rw [drain_cons os sz _ q SimulatorEvent.quit hesc, drain_map os sz f q h]

/-- C9 witness: a quit followed by a mouse-motion event still emits the
mouse move after `Quit`. -/
theorem C9_witness :
    drain identitySettings (Size.mk 320 240) [Event.quit, Event.mouseMotion 1 2]
      = [SimulatorEvent.quit, SimulatorEvent.mouseMove (Point.mk 1 2)] :=
  (C9_drain_continues_after_quit identitySettings (Size.mk 320 240)
    [Event.mouseMotion 1 2] (fun _ => SimulatorEvent.mouseMove (Point.mk 1 2))
    0 false (by decide)).1

/-- C10: no event emitted by a draining call is the `TouchCancelled`
variant, for any corrector, window size and native queue. -/
theorem C10_touchCancelled_never_emitted (os : OutputSettings) (sz : Size)
    (q : List Event) (se : SimulatorEvent) (h : se ∈ drain os sz q) :
    se.isTouchCancelled = false :=
  mem_drainFuel_not_touchCancelled os sz q.length q se h

/-- C10 witness: the event emitted for a native quit is not
`TouchCancelled`. -/
theorem C10_witness :
    SimulatorEvent.isTouchCancelled SimulatorEvent.quit = false :=
  C10_touchCancelled_never_emitted identitySettings (Size.mk 320 240)
    [Event.quit] SimulatorEvent.quit (by decide)

end EGSim
